import Mathlib

/-!
Verification of the tool-calling conversation loop of the `code-editing-agent`
repository, shallowly embedded from the Go sources:

* `internal/agent/agent.go` — the agent loop (`Agent.Run`, `Agent.executeTool`),
* `main.go` — the tool definitions, in particular `EditFile` / `createNewFile`.

Conversation messages are `openai.ChatCompletionMessage` values in the source;
we embed the fields the loop reads and writes (`Role`, `Content`, `ToolCalls`,
`ToolCallID`).  The inference backend is modelled by a script: a list of
assistant responses consumed one per inference call (an exhausted script plays
the role of a transport failure, which aborts the run).  The file system used
by `EditFile` is modelled as an association list from path to content.
-/

namespace CodeEditingAgent

/-- Embeds `openai.FunctionCall` (the fields read in `agent.go`): the tool
name and the raw JSON arguments string. -/
structure FunctionCall where
  name : String
  arguments : String
deriving DecidableEq

/-- Embeds `openai.ToolCall` as used by the loop: the correlation id and the
function name/arguments. -/
structure ToolCall where
  id : String
  function : FunctionCall
deriving DecidableEq

/-- Embeds `openai.ChatCompletionMessage` restricted to the fields the agent
loop touches: `Role`, `Content`, `ToolCalls`, `ToolCallID`. -/
structure ChatMessage where
  role : String
  content : String
  toolCalls : List ToolCall
  toolCallId : String
deriving DecidableEq

/-- Embeds `tools.ToolDefinition` as consumed by `Agent.executeTool`: the name
and the executor `func(input) (string, error)`, with a Go error modelled as
`Except.error` carrying the message `err.Error()` would return. -/
structure ToolDefinition where
  name : String
  fn : String → Except String String

/-- Go `strings.Contains` on rune lists: does `needle` occur as a contiguous
infix of `hay`? -/
def goContainsList (hay needle : List Char) : Bool :=
  match hay with
  | [] => needle.isEmpty
  | c :: rest => needle.isPrefixOf (c :: rest) || goContainsList rest needle

/-- Go `strings.Contains s sub`. -/
def goContains (s sub : String) : Bool :=
  goContainsList s.toList sub.toList

/-- The failure heuristic of `agent.go` line 77: a tool result is counted as
failed when it contains `"error"` or `"failed"` as a substring. -/
def isFailureText (result : String) : Bool :=
  goContains result "error" || goContains result "failed"

/-- Embeds `Agent.executeTool` (`agent.go` lines 90-110): scan the registered
tools for the first one whose name equals the requested name (the Go loop
breaks at the first match); if none matches return the literal text
`"tool not found"`; otherwise run the executor, returning its error message on
failure and its result verbatim on success. -/
def executeTool (tools : List ToolDefinition) (name : String) (input : String) : String :=
  match tools.find? (fun t => t.name == name) with
  | none => "tool not found"
  | some toolDef =>
    match toolDef.fn input with
    | Except.error e => e
    | Except.ok response => response

/-- The result text produced for one tool call of the batch. -/
def execText (tools : List ToolDefinition) (tc : ToolCall) : String :=
  executeTool tools tc.function.name tc.function.arguments

/-- The `toolMessage` built in `agent.go` lines 69-73: role `"tool"`, the
result text as content, and the originating call's id as `ToolCallID`. -/
def toolMessage (tools : List ToolDefinition) (tc : ToolCall) : ChatMessage :=
  { role := "tool", content := execText tools tc, toolCalls := [], toolCallId := tc.id }

/-- One iteration of the inner loop of `Agent.Run` (`agent.go` lines 52-85)
after `runInference` returned `resp`: returns the updated conversation and
whether the loop continues to another inference call.  With no tool calls the
response is appended and the loop breaks; otherwise the response and then one
tool message per tool call (in order) are appended, and the loop continues
exactly when no result text triggers the failure heuristic. -/
def innerStep (tools : List ToolDefinition) (resp : ChatMessage)
    (conv : List ChatMessage) : List ChatMessage × Bool :=
  if resp.toolCalls.isEmpty then
    (conv ++ [resp], false)
  else
    (conv ++ resp :: resp.toolCalls.map (toolMessage tools),
     !(resp.toolCalls.any fun tc => isFailureText (execText tools tc)))

/-- The inner loop of `Agent.Run` driven by a script of inference responses:
each inference call consumes the next scripted response; an exhausted script
models a transport error, which ends the run with the conversation as is. -/
def runInner (tools : List ToolDefinition) : List ChatMessage → List ChatMessage → List ChatMessage
  | [], conv => conv
  | resp :: rest, conv =>
    let s := innerStep tools resp conv
    if s.2 then runInner tools rest s.1 else s.1

/-- The sequence of conversations passed to `runInference` during one user
turn: the first inference call always receives the current conversation; after
a batch of tool calls that all passed the failure heuristic the loop issues
another inference call with the extended conversation. -/
def inferenceConvs (tools : List ToolDefinition) : List ChatMessage → List ChatMessage → List (List ChatMessage)
  | [], conv => [conv]
  | resp :: rest, conv =>
    let s := innerStep tools resp conv
    if s.2 then conv :: inferenceConvs tools rest s.1 else [conv]

/-- The assistant texts printed to the user during one user turn
(`agent.go` line 59): exactly the content of a response with no tool calls,
which also ends the turn. -/
def displayedTexts (tools : List ToolDefinition) : List ChatMessage → List String
  | [] => []
  | resp :: rest =>
    if resp.toolCalls.isEmpty then [resp.content]
    else if resp.toolCalls.any fun tc => isFailureText (execText tools tc) then []
    else displayedTexts tools rest

/-- The `userMessage` built in `agent.go` lines 46-49. -/
def userMessage (text : String) : ChatMessage :=
  { role := "user", content := text, toolCalls := [], toolCallId := "" }

/-- The retention trim of `agent.go` lines 42-44: before a new user message is
appended, a conversation longer than 20 entries is cut down to its last 10
entries. -/
def applyRetention (conv : List ChatMessage) : List ChatMessage :=
  if conv.length > 20 then conv.drop (conv.length - 10) else conv

/-- The start of one outer-loop iteration of `Agent.Run` (lines 42-50): apply
the retention trim, then append the new user message. -/
def appendUserTurn (conv : List ChatMessage) (text : String) : List ChatMessage :=
  applyRetention conv ++ [userMessage text]

/-! ### The `edit_file` tool (`main.go` lines 340-417)

`EditFile` parses its JSON input into `EditFileInput` and then works on the
file system; JSON decoding is plumbing, so the embedding starts from the
decoded `EditFileInput`.  The file system is an association list from path to
content; `os.ReadFile` fails (as not-exist) exactly on absent paths, and
`os.WriteFile` / `os.MkdirAll` succeed. -/

/-- Embeds `EditFileInput` (`main.go` lines 340-344). -/
structure EditFileInput where
  path : String
  oldStr : String
  newStr : String
deriving DecidableEq

/-- The modelled file system: a finite map from path to file content. -/
abbrev FS := List (String × String)

/-- `os.ReadFile`: the content stored at `p`, or `none` (not-exist). -/
def fsRead (fs : FS) (p : String) : Option String :=
  (fs.find? (fun e => e.1 == p)).map Prod.snd

/-- `os.WriteFile`: create or overwrite the file at `p` with content `c`. -/
def fsWrite (fs : FS) (p c : String) : FS :=
  match fs with
  | [] => [(p, c)]
  | (q, d) :: rest => if q == p then (p, c) :: rest else (q, d) :: fsWrite rest p c

/-- Go `strings.Replace(s, old, new, -1)` with a non-empty `old`, on rune
lists, fuelled by the input length (each step consumes at least one rune, so
fuel `hay.length` is always enough). -/
def goReplaceCore (old new : List Char) : Nat → List Char → List Char
  | _, [] => []
  | 0, hay => hay
  | fuel + 1, c :: rest =>
    if old.isPrefixOf (c :: rest) then
      new ++ goReplaceCore old new fuel (rest.drop (old.length - 1))
    else
      c :: goReplaceCore old new fuel rest

/-- Go `strings.Replace(s, "", new, -1)`: `new` is inserted at the start,
between every two runes, and at the end. -/
def goInterleave (new : List Char) : List Char → List Char
  | [] => new
  | c :: rest => new ++ c :: goInterleave new rest

/-- Go `strings.Replace(s, old, new, -1)`: replace every non-overlapping
occurrence of `old` in `s` by `new`, left to right; an empty `old` matches at
every rune boundary. -/
def goReplaceAll (s old new : String) : String :=
  match old.toList with
  | [] => String.mk (goInterleave new.toList s.toList)
  | o :: os => String.mk (goReplaceCore (o :: os) new.toList s.toList.length s.toList)

/-- Embeds `createNewFile` (`main.go` lines 402-417): directory creation and
the write succeed in the model, so the call returns the success message and
the written file system. -/
def createNewFile (fs : FS) (filePath content : String) : Except String String × FS :=
  (Except.ok ("Successfully created file " ++ filePath), fsWrite fs filePath content)

/-- Embeds `EditFile` (`main.go` lines 348-390) after JSON decoding, paired
with the file system it acts on.  The checks run in source order: empty path,
identical `old_str`/`new_str`, then the read; a missing file with empty
`old_str` is created with `new_str` as content; a missing file otherwise is a
read error; on an existing file the replacement is computed and the
"not found" error is raised only when the content is unchanged and `old_str`
is non-empty; otherwise the new content is written. -/
def EditFile (input : EditFileInput) (fs : FS) : Except String String × FS :=
  if input.path = "" then
    (Except.error "path cannot be empty", fs)
  else if input.oldStr = input.newStr then
    (Except.error "old_str and new_str cannot be identical", fs)
  else
    match fsRead fs input.path with
    | none =>
      if input.oldStr = "" then
        createNewFile fs input.path input.newStr
      else
        (Except.error ("failed to read file " ++ input.path), fs)
    | some oldContent =>
      let newContent := goReplaceAll oldContent input.oldStr input.newStr
      if oldContent = newContent ∧ input.oldStr ≠ "" then
        (Except.error ("old_str '" ++ input.oldStr ++ "' not found in file " ++ input.path), fs)
      else
        (Except.ok "File successfully edited", fsWrite fs input.path newContent)

/-! ### Helper lemmas -/

/-- A tool message carries the id of the call that produced it. -/
theorem toolMessage_toolCallId (tools : List ToolDefinition) (tc : ToolCall) :
    (toolMessage tools tc).toolCallId = tc.id := rfl

/-- The tool messages of a batch carry the originating call ids, in order. -/
theorem map_toolMessage_ids (tools : List ToolDefinition) (l : List ToolCall) :
    (l.map (toolMessage tools)).map ChatMessage.toolCallId = l.map ToolCall.id := by
  induction l with
  | nil => rfl
  | cons tc rest ih => simp [toolMessage, ih]

/-- The first inference call of a user turn always receives the current
conversation. -/
theorem inferenceConvs_zero (tools : List ToolDefinition)
    (script : List ChatMessage) (conv : List ChatMessage) :
    (inferenceConvs tools script conv)[0]? = some conv := by
  cases script with
  | nil => rfl
  | cons resp rest =>
    rw [inferenceConvs]
    split <;> simp

/-- At least one inference call happens per user turn. -/
theorem inferenceConvs_length_pos (tools : List ToolDefinition)
    (script : List ChatMessage) (conv : List ChatMessage) :
    1 ≤ (inferenceConvs tools script conv).length := by
  cases script with
  | nil => simp [inferenceConvs]
  | cons resp rest =>
    rw [inferenceConvs]
    split <;> simp

/-! ### Claim theorems -/

/-- C1: between any two consecutive inference calls of one user turn, the
conversation grows by exactly the processed assistant turn (which carries tool
calls) followed by exactly one tool-result message per tool call, in the order
of the originating requests and carrying their ids. -/
theorem run_pairs_tool_results
    (tools : List ToolDefinition) (script : List ChatMessage) (conv : List ChatMessage)
    (i : Nat) (c c' : List ChatMessage)
    (hc : (inferenceConvs tools script conv)[i]? = some c)
    (hc' : (inferenceConvs tools script conv)[i + 1]? = some c') :
    ∃ resp : ChatMessage, resp.toolCalls ≠ [] ∧
      c' = c ++ resp :: resp.toolCalls.map (toolMessage tools) ∧
      (resp.toolCalls.map (toolMessage tools)).map ChatMessage.toolCallId
        = resp.toolCalls.map ToolCall.id := by
  induction script generalizing conv i c c' with
  | nil => simp [inferenceConvs] at hc'
  | cons resp rest ih =>
    rw [inferenceConvs] at hc hc'
    by_cases hcont : (innerStep tools resp conv).2 = true
    · rw [if_pos hcont] at hc hc'
      cases i with
      | zero =>
        have hcv : c = conv := by simpa using hc.symm
        have hnonempty : ¬ resp.toolCalls.isEmpty = true := by
          intro hemp
          rw [innerStep, if_pos hemp] at hcont
          simp at hcont
        have hc0 : (inferenceConvs tools rest (innerStep tools resp conv).1)[0]? = some c' := by
          simpa using hc'
        have hstep : (innerStep tools resp conv).1
            = conv ++ resp :: resp.toolCalls.map (toolMessage tools) := by
          rw [innerStep, if_neg hnonempty]
        refine ⟨resp, ?_, ?_, map_toolMessage_ids tools resp.toolCalls⟩
        · intro hnil
          exact hnonempty (by simp [hnil])
        · rw [inferenceConvs_zero] at hc0
          rw [hcv, ← hstep]
          exact (Option.some.inj hc0).symm
      | succ j =>
        exact ih _ j c c' (by simpa using hc) (by simpa using hc')
    · rw [if_neg hcont] at hc'
      simp at hc'

/-- Witness for C1: a concrete run with one echoing tool and a two-response
script; the second inference call sees the assistant turn paired with its tool
result. -/
theorem run_pairs_tool_results_witness :
    ∃ resp : ChatMessage, resp.toolCalls ≠ [] ∧
      ([⟨"assistant", "", [⟨"1", ⟨"echo", "x"⟩⟩], ""⟩, ⟨"tool", "x", [], "1"⟩] : List ChatMessage)
        = [] ++ resp :: resp.toolCalls.map (toolMessage [⟨"echo", fun s => Except.ok s⟩]) ∧
      (resp.toolCalls.map (toolMessage [⟨"echo", fun s => Except.ok s⟩])).map ChatMessage.toolCallId
        = resp.toolCalls.map ToolCall.id :=
  run_pairs_tool_results [⟨"echo", fun s => Except.ok s⟩]
    [⟨"assistant", "", [⟨"1", ⟨"echo", "x"⟩⟩], ""⟩, ⟨"assistant", "done", [], ""⟩] [] 0
    [] [⟨"assistant", "", [⟨"1", ⟨"echo", "x"⟩⟩], ""⟩, ⟨"tool", "x", [], "1"⟩] rfl rfl

/-- C2: if some tool call of the batch produces a result text the heuristic
classifies as failed, the inner loop ends with the assistant turn and all tool
results (the failed one included) appended, and no further inference call is
issued for this user turn. -/
theorem failure_short_circuit
    (tools : List ToolDefinition) (resp : ChatMessage)
    (rest : List ChatMessage) (conv : List ChatMessage)
    (h : ∃ tc ∈ resp.toolCalls, isFailureText (execText tools tc) = true) :
    runInner tools (resp :: rest) conv
      = conv ++ resp :: resp.toolCalls.map (toolMessage tools) ∧
    inferenceConvs tools (resp :: rest) conv = [conv] := by
  obtain ⟨tc, htc, hfail⟩ := h
  have hnonempty : ¬ resp.toolCalls.isEmpty = true := by
    cases hl : resp.toolCalls with
    | nil => rw [hl] at htc; simp at htc
    | cons a as => simp [hl]
  have hany : (resp.toolCalls.any fun tc => isFailureText (execText tools tc)) = true :=
    List.any_eq_true.mpr ⟨tc, htc, hfail⟩
  have hstep2 : (innerStep tools resp conv).2 = false := by
    rw [innerStep, if_neg hnonempty]
    simp [hany]
  have hstep1 : (innerStep tools resp conv).1
      = conv ++ resp :: resp.toolCalls.map (toolMessage tools) := by
    rw [innerStep, if_neg hnonempty]
  constructor
  · rw [runInner, if_neg (by simp [hstep2]), hstep1]
  · rw [inferenceConvs, if_neg (by simp [hstep2])]

/-- Witness for C2: a single tool whose executor fails with a message
containing `"error"`; the turn ends after recording the result. -/
theorem failure_short_circuit_witness :
    runInner [⟨"boom", fun _ => Except.error "error: boom"⟩]
        [⟨"assistant", "", [⟨"1", ⟨"boom", "x"⟩⟩], ""⟩] []
      = [⟨"assistant", "", [⟨"1", ⟨"boom", "x"⟩⟩], ""⟩, ⟨"tool", "error: boom", [], "1"⟩] ∧
    inferenceConvs [⟨"boom", fun _ => Except.error "error: boom"⟩]
        [⟨"assistant", "", [⟨"1", ⟨"boom", "x"⟩⟩], ""⟩] [] = [[]] :=
  failure_short_circuit [⟨"boom", fun _ => Except.error "error: boom"⟩]
    ⟨"assistant", "", [⟨"1", ⟨"boom", "x"⟩⟩], ""⟩ [] []
    ⟨⟨"1", ⟨"boom", "x"⟩⟩, by simp, rfl⟩

/-- C3 counterexample: the heuristic of `agent.go` line 77 checks only
`"error"` and `"failed"`; the text `"cannot"` contains the substring
`"cannot"` and neither of the other two, yet is classified as successful, and
a batch producing it keeps the loop going. -/
theorem cannot_not_classified_failed :
    goContains "cannot" "cannot" = true ∧
    goContains "cannot" "error" = false ∧
    goContains "cannot" "failed" = false ∧
    isFailureText "cannot" = false ∧
    (innerStep [⟨"t", fun _ => Except.ok "cannot"⟩]
      ⟨"assistant", "", [⟨"1", ⟨"t", ""⟩⟩], ""⟩ []).2 = true :=
  ⟨by decide, by decide, by decide, by decide, rfl⟩

/-- C3 amended: the loop classifies a batch as failed exactly when some
result text contains `"error"` or `"failed"` as a substring; `"cannot"` is not
checked. -/
theorem failure_flag_iff
    (tools : List ToolDefinition) (resp : ChatMessage) (conv : List ChatMessage)
    (h : resp.toolCalls ≠ []) :
    (innerStep tools resp conv).2 = false ↔
      ∃ tc ∈ resp.toolCalls,
        (goContains (execText tools tc) "error" = true ∨
         goContains (execText tools tc) "failed" = true) := by
  have hnonempty : ¬ resp.toolCalls.isEmpty = true := by simpa using h
  rw [innerStep, if_neg hnonempty]
  simp [List.any_eq_true, isFailureText, Bool.or_eq_true]

/-- Witness for C3 amended: a batch whose only result is `"operation failed"`
is classified as failed. -/
theorem failure_flag_iff_witness :
    (innerStep [⟨"boom", fun _ => Except.error "operation failed"⟩]
        ⟨"assistant", "", [⟨"1", ⟨"boom", "x"⟩⟩], ""⟩ []).2 = false ↔
      ∃ tc ∈ (⟨"assistant", "", [⟨"1", ⟨"boom", "x"⟩⟩], ""⟩ : ChatMessage).toolCalls,
        (goContains (execText [⟨"boom", fun _ => Except.error "operation failed"⟩] tc) "error" = true ∨
         goContains (execText [⟨"boom", fun _ => Except.error "operation failed"⟩] tc) "failed" = true) :=
  failure_flag_iff [⟨"boom", fun _ => Except.error "operation failed"⟩]
    ⟨"assistant", "", [⟨"1", ⟨"boom", "x"⟩⟩], ""⟩ [] (by decide)

/-- C5: when the conversation holds more than 20 entries, the trim keeps
exactly its 10 most recent entries, and after the new user message is appended
the conversation is those 10 entries followed by the new one (11 entries in
total); the older entries are gone from the stored conversation. -/
theorem retention_bound (conv : List ChatMessage) (text : String)
    (h : conv.length > 20) :
    appendUserTurn conv text = conv.drop (conv.length - 10) ++ [userMessage text] ∧
    (applyRetention conv).length = 10 ∧
    (appendUserTurn conv text).length = 11 := by
  refine ⟨?_, ?_, ?_⟩
  · rw [appendUserTurn, applyRetention, if_pos h]
  · rw [applyRetention, if_pos h, List.length_drop]
    omega
  · rw [appendUserTurn, List.length_append, applyRetention, if_pos h, List.length_drop]
    simp
    omega

/-- Witness for C5: a 21-entry conversation is trimmed to its last 10 entries
before the new user message joins them. -/
theorem retention_bound_witness :
    appendUserTurn (List.replicate 21 (userMessage "u")) "v"
      = (List.replicate 21 (userMessage "u")).drop
          ((List.replicate 21 (userMessage "u")).length - 10) ++ [userMessage "v"] ∧
    (applyRetention (List.replicate 21 (userMessage "u"))).length = 10 ∧
    (appendUserTurn (List.replicate 21 (userMessage "u")) "v").length = 11 :=
  retention_bound (List.replicate 21 (userMessage "u")) "v" (by simp)

/-- C6: a tool call whose name matches no registered tool definition yields
the literal result text `"tool not found"`; `executeTool` returns it as a
normal value. -/
theorem unknown_tool_result (tools : List ToolDefinition) (name input : String)
    (h : ∀ td ∈ tools, td.name ≠ name) :
    executeTool tools name input = "tool not found" := by
  rw [executeTool]
  have hfind : tools.find? (fun t => t.name == name) = none := by
    rw [List.find?_eq_none]
    intro t ht
    simpa using h t ht
  rw [hfind]

/-- Witness for C6: a registry holding only `read_file` does not know `rm`. -/
theorem unknown_tool_result_witness :
    executeTool [⟨"read_file", fun _ => Except.ok "content"⟩] "rm" "x" = "tool not found" :=
  unknown_tool_result [⟨"read_file", fun _ => Except.ok "content"⟩] "rm" "x" (by
    intro td htd
    rw [List.mem_singleton] at htd
    subst htd
    decide)

/-- C7: a response with zero tool calls is appended, its text is displayed,
and the inner loop ends with no further inference call for this user turn. -/
theorem clean_answer_terminates
    (tools : List ToolDefinition) (resp : ChatMessage)
    (rest : List ChatMessage) (conv : List ChatMessage)
    (h : resp.toolCalls = []) :
    runInner tools (resp :: rest) conv = conv ++ [resp] ∧
    inferenceConvs tools (resp :: rest) conv = [conv] ∧
    displayedTexts tools (resp :: rest) = [resp.content] := by
  have hemp : resp.toolCalls.isEmpty = true := by simp [h]
  refine ⟨?_, ?_, ?_⟩
  · rw [runInner, if_neg (by simp [innerStep, hemp]), innerStep, if_pos hemp]
  · rw [inferenceConvs, if_neg (by simp [innerStep, hemp])]
  · rw [displayedTexts, if_pos hemp]

/-- Witness for C7: a lone final answer `"hi"` ends the turn at once. -/
theorem clean_answer_terminates_witness :
    runInner [] [⟨"assistant", "hi", [], ""⟩] [] = [] ++ [⟨"assistant", "hi", [], ""⟩] ∧
    inferenceConvs [] [⟨"assistant", "hi", [], ""⟩] [] = [[]] ∧
    displayedTexts [] [⟨"assistant", "hi", [], ""⟩] = ["hi"] :=
  clean_answer_terminates [] ⟨"assistant", "hi", [], ""⟩ [] [] rfl

/-- C9: when every tool call of a non-empty batch names an unregistered tool,
every result is the literal `"tool not found"`, which trips no failure
substring, so the loop recurses into another inference call instead of
returning control to the user. -/
theorem unknown_batch_continues
    (tools : List ToolDefinition) (resp : ChatMessage)
    (rest : List ChatMessage) (conv : List ChatMessage)
    (h1 : resp.toolCalls ≠ [])
    (h2 : ∀ tc ∈ resp.toolCalls,
      (tools.find? fun td => td.name == tc.function.name) = none) :
    (∀ tc ∈ resp.toolCalls, execText tools tc = "tool not found") ∧
    runInner tools (resp :: rest) conv
      = runInner tools rest (conv ++ resp :: resp.toolCalls.map (toolMessage tools)) ∧
    2 ≤ (inferenceConvs tools (resp :: rest) conv).length := by
  have hres : ∀ tc ∈ resp.toolCalls, execText tools tc = "tool not found" := by
    intro tc htc
    rw [execText, executeTool, h2 tc htc]
  have hnonempty : ¬ resp.toolCalls.isEmpty = true := by simpa using h1
  have hany : (resp.toolCalls.any fun tc => isFailureText (execText tools tc)) = false := by
    rw [List.any_eq_false]
    intro tc htc
    rw [hres tc htc]
    decide
  have hstep2 : (innerStep tools resp conv).2 = true := by
    rw [innerStep, if_neg hnonempty]
    simp [hany]
  have hstep1 : (innerStep tools resp conv).1
      = conv ++ resp :: resp.toolCalls.map (toolMessage tools) := by
    rw [innerStep, if_neg hnonempty]
  refine ⟨hres, ?_, ?_⟩
  · rw [runInner, if_pos hstep2, hstep1]
  · rw [inferenceConvs, if_pos hstep2, List.length_cons]
    have := inferenceConvs_length_pos tools rest (innerStep tools resp conv).1
    omega

/-- Witness for C9: an empty registry and a batch of one unknown call leads to
a second inference call. -/
theorem unknown_batch_continues_witness :
    (∀ tc ∈ (⟨"assistant", "", [⟨"1", ⟨"ghost", "x"⟩⟩], ""⟩ : ChatMessage).toolCalls,
      execText [] tc = "tool not found") ∧
    runInner [] [⟨"assistant", "", [⟨"1", ⟨"ghost", "x"⟩⟩], ""⟩] []
      = runInner [] []
          ([] ++ (⟨"assistant", "", [⟨"1", ⟨"ghost", "x"⟩⟩], ""⟩ : ChatMessage)
            :: (⟨"assistant", "", [⟨"1", ⟨"ghost", "x"⟩⟩], ""⟩ : ChatMessage).toolCalls.map (toolMessage [])) ∧
    2 ≤ (inferenceConvs [] [⟨"assistant", "", [⟨"1", ⟨"ghost", "x"⟩⟩], ""⟩] []).length :=
  unknown_batch_continues [] ⟨"assistant", "", [⟨"1", ⟨"ghost", "x"⟩⟩], ""⟩ [] []
    (by decide) (by intro tc htc; rfl)

/-- C4 counterexample: `edit_file` with non-empty path, empty `old_str` and
non-empty `new_str` on an EXISTING file does not return an error — Go
`strings.Replace` with an empty pattern rewrites the file, inserting `new_str`
at every rune boundary, and the call reports success. -/
theorem edit_file_empty_old_existing_succeeds :
    (EditFile ⟨"new.txt", "", "ab"⟩ [("new.txt", "xy")]).1
      = Except.ok "File successfully edited" ∧
    (EditFile ⟨"new.txt", "", "ab"⟩ [("new.txt", "xy")]).2
      = [("new.txt", "abxabyab")] :=
  ⟨rfl, rfl⟩

/-- C4 amended: with non-empty path, empty `old_str` and non-empty `new_str`,
a missing file is created with content `new_str` and a creation confirmation
is returned; an existing file is rewritten with `new_str` inserted at every
rune boundary and the call succeeds with `"File successfully edited"` — it
does not return an error. -/
theorem edit_file_empty_old (path newStr : String) (fs : FS)
    (hp : path ≠ "") (hn : newStr ≠ "") :
    EditFile ⟨path, "", newStr⟩ fs =
      match fsRead fs path with
      | none =>
        (Except.ok ("Successfully created file " ++ path), fsWrite fs path newStr)
      | some oldContent =>
        (Except.ok "File successfully edited",
         fsWrite fs path (goReplaceAll oldContent "" newStr)) := by
  rw [EditFile, if_neg hp, if_neg (fun hsame => hn hsame.symm)]
  cases hr : fsRead fs path with
  | none => simp [createNewFile]
  | some oldContent =>
    have hcond : ¬ (oldContent = goReplaceAll oldContent "" newStr ∧ ("" : String) ≠ "") := by
      intro hand
      exact hand.2 rfl
    simp only [if_pos rfl, if_neg hcond]

/-- Witness for C4 amended: creating `new.txt` with content `ab` on an empty
file system. -/
theorem edit_file_empty_old_witness :
    EditFile ⟨"new.txt", "", "ab"⟩ [] =
      match fsRead ([] : FS) "new.txt" with
      | none =>
        (Except.ok ("Successfully created file " ++ "new.txt"), fsWrite [] "new.txt" "ab")
      | some oldContent =>
        (Except.ok "File successfully edited",
         fsWrite [] "new.txt" (goReplaceAll oldContent "" "ab")) :=
  edit_file_empty_old "new.txt" "ab" [] (by decide) (by decide)

/-- C8 counterexample: with an empty path and identical `old_str`/`new_str`,
the call fails with `"path cannot be empty"`, not with the identical-strings
message — the path check runs first (`main.go` lines 356-361). -/
theorem identical_strings_empty_path_message :
    (EditFile ⟨"", "foo", "foo"⟩ []).1 = Except.error "path cannot be empty" ∧
    (EditFile ⟨"", "foo", "foo"⟩ []).1
      ≠ Except.error "old_str and new_str cannot be identical" := by
  refine ⟨rfl, fun h => ?_⟩
  rw [show (EditFile ⟨"", "foo", "foo"⟩ []).1 = Except.error "path cannot be empty" from rfl] at h
  rw [Except.error.injEq] at h
  exact absurd h (by decide)

/-- C8 amended: for every input with a NON-EMPTY path and `old_str` equal to
`new_str`, the call fails with `"old_str and new_str cannot be identical"`
regardless of the file system, and the file system is untouched; with an
empty path the call still fails without touching the file system, but with
the `"path cannot be empty"` message. -/
theorem identical_strings_rejected (input : EditFileInput) (fs : FS)
    (hp : input.path ≠ "") (he : input.oldStr = input.newStr) :
    EditFile input fs = (Except.error "old_str and new_str cannot be identical", fs) := by
  rw [EditFile, if_neg hp, if_pos he]

/-- Witness for C8 amended: the spec's own scenario, on a file system where
`a.txt` exists. -/
theorem identical_strings_rejected_witness :
    EditFile ⟨"a.txt", "foo", "foo"⟩ [("a.txt", "foo bar")]
      = (Except.error "old_str and new_str cannot be identical", [("a.txt", "foo bar")]) :=
  identical_strings_rejected ⟨"a.txt", "foo", "foo"⟩ [("a.txt", "foo bar")] (by decide) rfl

/-- C10: whenever `EditFile` returns an error, the file system is unchanged —
every error path of `main.go` lines 348-390 returns before `os.WriteFile` is
reached. -/
theorem edit_error_leaves_fs (input : EditFileInput) (fs : FS) (e : String)
    (h : (EditFile input fs).1 = Except.error e) :
    (EditFile input fs).2 = fs := by
  by_cases h1 : input.path = ""
  · simp [EditFile, h1]
  · by_cases h2 : input.oldStr = input.newStr
    · simp [EditFile, h1, h2]
    · rw [EditFile, if_neg h1, if_neg h2] at h ⊢
      cases hr : fsRead fs input.path with
      | none =>
        simp only [hr] at h ⊢
        by_cases h3 : input.oldStr = ""
        · rw [if_pos h3] at h
          simp [createNewFile] at h
        · rw [if_neg h3]
      | some oldContent =>
        simp only [hr] at h ⊢
        by_cases h4 : oldContent = goReplaceAll oldContent input.oldStr input.newStr ∧
            input.oldStr ≠ ""
        · rw [if_pos h4]
        · rw [if_neg h4] at h
          simp at h

/-- Witness for C10: the identical-strings error leaves an existing file
untouched. -/
theorem edit_error_leaves_fs_witness :
    (EditFile ⟨"a.txt", "foo", "foo"⟩ [("a.txt", "hi")]).2 = [("a.txt", "hi")] :=
  edit_error_leaves_fs ⟨"a.txt", "foo", "foo"⟩ [("a.txt", "hi")]
    "old_str and new_str cannot be identical" rfl

end CodeEditingAgent
